import Mathlib

/-!
Shallow embedding of `src/stocks_52week_rank.py` (stocks-52week-rank).

Prices are modelled as rationals (`ℚ`); a per-ticker price series is a
`List ℚ` ordered chronologically (oldest first), so `getLast?` is the
current price (`iloc[-1]` in the source).  The pandas NaN sentinel for
the 200-day moving average is modelled as `Option ℚ` with `none` for
"not available".  Fallible steps (indexing an empty series, a failed
download) are modelled with `Option`.
-/

/-- Embedding of the `StockInfo` dataclass (source lines 23-32).  The
`moving_average_200d` field is `Option ℚ`: `none` stands for the NaN
value pandas produces when fewer than 200 points exist. -/
structure StockInfo where
  ticker : String
  current_price : ℚ
  high_52_week : ℚ
  low_52_week : ℚ
  current_pct_from_low : ℚ
  moving_average_200d : Option ℚ

/-- Embedding of Python `ticker.replace(".SA", "")` specialised to the
fixed pattern `".SA"`: every non-overlapping occurrence of `".SA"` is
removed, scanning left to right (source line 73). -/
def removeSA : List Char → List Char
  | '.' :: 'S' :: 'A' :: rest => removeSA rest
  | c :: rest => c :: removeSA rest
  | [] => []

/-- Embedding of source lines 72-74:
`ticker.replace(".SA", "") if ticker.endswith(".SA") else ticker`. -/
def clean_ticker (ticker : String) : String :=
  if List.isSuffixOf ['.', 'S', 'A'] ticker.data
  then String.mk (removeSA ticker.data)
  else ticker

/-- Embedding of source line 70,
`ticker_data.rolling(window=200).mean().iloc[-1]`: the last entry of a
200-wide rolling mean is the mean of the last 200 values when at least
200 values exist, and NaN (`none`) otherwise. -/
def movingAverage200 (series : List ℚ) : Option ℚ :=
  if 200 ≤ series.length then
    some ((series.drop (series.length - 200)).sum / 200)
  else
    none

/-- Per-ticker body of `StockDataProcessor.fetch_stock_data` (source
lines 64-84).  `getLast?`, `min?` and `max?` embed `iloc[-1]`, `.min()`
and `.max()`; on an empty series `iloc[-1]` raises `IndexError`, which
is modelled by returning `none` (the three scrutinees are `none`
exactly on the empty series). -/
def computeStockInfo (ticker : String) (series : List ℚ) : Option StockInfo :=
  match series.getLast?, series.min?, series.max? with
  | some current_price, some low_52_week, some high_52_week =>
    some
      { ticker := clean_ticker ticker
      , current_price := current_price
      , high_52_week := high_52_week
      , low_52_week := low_52_week
      , current_pct_from_low := ((current_price - low_52_week) / low_52_week) * 100
      , moving_average_200d := movingAverage200 series }
  | _, _, _ => none

/-- State of a `StockDataProcessor` object (source lines 44-52):
the ticker list given to `__init__` and the accumulated `stock_data`. -/
structure StockDataProcessor where
  tickers : List String
  stock_data : List StockInfo

/-- The `for ticker in self.tickers` loop of `fetch_stock_data` (source
lines 64-84): records are appended in input-ticker order; the first
ticker whose series is empty aborts the whole run (`none`). -/
def fetchRecords (close : String → List ℚ) : List String → Option (List StockInfo)
  | [] => some []
  | t :: ts =>
    match computeStockInfo t (close t), fetchRecords close ts with
    | some r, some rs => some (r :: rs)
    | _, _ => none

/-- Embedding of `StockDataProcessor.fetch_stock_data` (source lines
54-86) as a state transformer: `close` maps each ticker to its fetched
closing-price series (`data["Close"][ticker]`). -/
def fetch_stock_data (close : String → List ℚ) (p : StockDataProcessor) :
    Option StockDataProcessor :=
  (fetchRecords close p.tickers).map fun rs => { p with stock_data := p.stock_data ++ rs }

/-- The sort key relation of source line 92:
`sorted(self.stock_data, key=lambda x: x.current_pct_from_low)`. -/
def pctLe (a b : StockInfo) : Prop :=
  a.current_pct_from_low ≤ b.current_pct_from_low

instance : DecidableRel pctLe := fun a b =>
  inferInstanceAs (Decidable (a.current_pct_from_low ≤ b.current_pct_from_low))

instance : IsTotal StockInfo pctLe :=
  ⟨fun a b => le_total a.current_pct_from_low b.current_pct_from_low⟩

instance : IsTrans StockInfo pctLe :=
  ⟨fun _ _ _ h1 h2 => le_trans h1 h2⟩

/-- Embedding of `StockDataProcessor.sort_stock_data` (source lines
88-92).  Python's `sorted` is a stable ascending sort by the key and
returns a fresh list, leaving `self.stock_data` untouched; the method
is modelled as returning the sorted list together with the (unchanged)
processor state.  `List.insertionSort` with `pctLe` is extensionally
the unique stable ascending sort by the key. -/
def sort_stock_data (p : StockDataProcessor) : List StockInfo × StockDataProcessor :=
  (List.insertionSort pctLe p.stock_data, p)

/-- Embedding of `df.head(top)` (source line 128) for a non-negative
`top`: the first `min(top, length)` rows of the ranked sequence. -/
def topN (ranked : List StockInfo) (n : ℕ) : List StockInfo :=
  ranked.take n

/-- Row selection of `StockDataProcessor.create_dataframe` (source
lines 94-128): sort, then keep the top rows.  The pandas presentation
steps (rounding, percent formatting, index column) are rendering
concerns and are not part of the record data modelled here. -/
def create_dataframe (p : StockDataProcessor) (top : ℕ) : List StockInfo :=
  topN (sort_stock_data p).1 top

/-- Embedding of Python `str.strip()` as used on source line 191:
leading and trailing whitespace characters are removed. -/
def strip (s : String) : String :=
  String.mk (((s.data.dropWhile Char.isWhitespace).reverse.dropWhile
    Char.isWhitespace).reverse)

/-- Embedding of `read_tickers` (source lines 182-194).  The file is
modelled as `Option (List String)`: `none` for a missing file (the
`os.path.exists` check fails, an error is printed and the process
exits with code 1), `some lines` for its lines.  The comprehension
`[line.strip() for line in file.readlines() if line.strip()]` keeps
the stripped non-blank lines. -/
def read_tickers (file : Option (List String)) : Option (List String) :=
  match file with
  | none => none
  | some lines => some ((lines.filter fun l => strip l ≠ "").map strip)

/-- Observable outcome of one `run` invocation (source lines 270-304):
the process exit code, whether an error message was printed, whether
the bulk fetch was reached, and the ranked rows handed to the renderer
(`none` when the run aborted before producing output). -/
structure RunOutcome where
  exitCode : ℕ
  errorPrinted : Bool
  fetchAttempted : Bool
  output : Option (List StockInfo)

/-- Embedding of `run` (source lines 270-304): read the ticker file
(missing file prints and exits 1), exit 1 on an empty ticker list,
fetch, rank, truncate, and hand the rows to the selected renderer.  A
fetch-time failure (download error or a bad series) terminates the run
with a nonzero exit status before any output is produced. -/
def run (file : Option (List String)) (close : String → List ℚ) (top : ℕ) : RunOutcome :=
  match read_tickers file with
  | none =>
    { exitCode := 1, errorPrinted := true, fetchAttempted := false, output := none }
  | some tickers =>
    if tickers = [] then
      { exitCode := 1, errorPrinted := true, fetchAttempted := false, output := none }
    else
      match fetch_stock_data close { tickers := tickers, stock_data := [] } with
      | none =>
        { exitCode := 1, errorPrinted := true, fetchAttempted := true, output := none }
      | some p =>
        { exitCode := 0, errorPrinted := false, fetchAttempted := true
        , output := some (create_dataframe p top) }

/-- Modelled from the spec: the arithmetic mean of a list of values, as
named in the spec's description of `moving_average_200d` ("arithmetic
mean of the trailing 200 values"); compared against the source-derived
`movingAverage200`. -/
def specArithMean (l : List ℚ) : ℚ :=
  l.sum / (l.length : ℚ)

/-- Concrete three-day series used by the witnesses. -/
def sampleSeries : List ℚ := [4, 2, 6]

/-- The record `computeStockInfo` produces for ticker `"VALE3.SA"` on
`sampleSeries`. -/
def sampleInfo : StockInfo :=
  { ticker := "VALE3"
  , current_price := 6
  , high_52_week := 6
  , low_52_week := 2
  , current_pct_from_low := 200
  , moving_average_200d := none }

/-- Price lookup used by the witnesses: every ticker maps to
`sampleSeries`. -/
def sampleClose : String → List ℚ := fun _ => sampleSeries

/-- Characterisation of `List.min?` on rational lists: the minimum is a
member that bounds every member from below. -/
theorem rat_min?_eq_some_iff {xs : List ℚ} {a : ℚ} :
    xs.min? = some a ↔ a ∈ xs ∧ ∀ b ∈ xs, a ≤ b := by
  haveI : Std.Antisymm ((· : ℚ) ≤ ·) := ⟨fun h1 h2 => le_antisymm h1 h2⟩
  exact List.min?_eq_some_iff (fun a => le_refl a) (fun a b => min_choice a b)
    (fun a b c => le_min_iff)

/-- Characterisation of `List.max?` on rational lists: the maximum is a
member that bounds every member from above. -/
theorem rat_max?_eq_some_iff {xs : List ℚ} {a : ℚ} :
    xs.max? = some a ↔ a ∈ xs ∧ ∀ b ∈ xs, b ≤ a := by
  haveI : Std.Antisymm ((· : ℚ) ≤ ·) := ⟨fun h1 h2 => le_antisymm h1 h2⟩
  exact List.max?_eq_some_iff (fun a => le_refl a) (fun a b => max_choice a b)
    (fun a b c => max_le_iff)

/-- Inversion for `computeStockInfo`: a produced record's fields are
the last element, minimum, maximum, percentage formula, rolling mean
and cleaned ticker of the input series. -/
theorem computeStockInfo_eq_some {t : String} {s : List ℚ} {info : StockInfo}
    (h : computeStockInfo t s = some info) :
    s.getLast? = some info.current_price ∧
    s.min? = some info.low_52_week ∧
    s.max? = some info.high_52_week ∧
    info.current_pct_from_low
      = (info.current_price - info.low_52_week) / info.low_52_week * 100 ∧
    info.moving_average_200d = movingAverage200 s ∧
    info.ticker = clean_ticker t := by
  unfold computeStockInfo at h
  cases hc : s.getLast? with
  | none => rw [hc] at h; simp at h
  | some cur =>
    cases hlo : s.min? with
    | none => rw [hc, hlo] at h; simp at h
    | some lo =>
      cases hhi : s.max? with
      | none => rw [hc, hlo, hhi] at h; simp at h
      | some hi =>
        rw [hc, hlo, hhi] at h
        simp only [Option.some.injEq] at h
        subst h
        exact ⟨rfl, rfl, rfl, rfl, rfl, rfl⟩

/-- On a non-empty series `computeStockInfo` succeeds. -/
theorem computeStockInfo_of_ne_nil (t : String) {s : List ℚ} (h : s ≠ []) :
    ∃ info, computeStockInfo t s = some info := by
  cases hc : s.getLast? with
  | none => exact absurd (List.getLast?_eq_none_iff.1 hc) h
  | some cur =>
    cases hlo : s.min? with
    | none => exact absurd (List.min?_eq_none_iff.1 hlo) h
    | some lo =>
      cases hhi : s.max? with
      | none => exact absurd (List.max?_eq_none_iff.1 hhi) h
      | some hi =>
        exact ⟨{ ticker := clean_ticker t, current_price := cur, high_52_week := hi
               , low_52_week := lo, current_pct_from_low := ((cur - lo) / lo) * 100
               , moving_average_200d := movingAverage200 s }
             , by unfold computeStockInfo; rw [hc, hlo, hhi]⟩

/-- Shared behaviour of the fetch loop: on an input where every series
is non-empty it succeeds, produces one record per ticker, and the
`i`-th record is computed from the `i`-th ticker. -/
theorem fetchRecords_spec (close : String → List ℚ) :
    ∀ tickers : List String, (∀ t ∈ tickers, close t ≠ []) →
      ∃ records, fetchRecords close tickers = some records ∧
        records.length = tickers.length ∧
        ∀ i : ℕ, records[i]? = (tickers[i]?).bind fun t => computeStockInfo t (close t) := by
  intro tickers
  induction tickers with
  | nil =>
    intro _
    exact ⟨[], rfl, rfl, fun i => by cases i <;> rfl⟩
  | cons t ts ih =>
    intro h
    obtain ⟨r, hr⟩ := computeStockInfo_of_ne_nil t (h t (List.mem_cons_self t ts))
    obtain ⟨rs, hrs, hlen, hidx⟩ := ih fun u hu => h u (List.mem_cons_of_mem _ hu)
    refine ⟨r :: rs, ?_, by simpa using hlen, ?_⟩
    · unfold fetchRecords
      rw [hr, hrs]
    · intro i
      cases i with
      | zero => simp [hr]
      | succ j => simpa using hidx j

/-- Inserting a record into a list keeps the records of any fixed key
value in their relative order; the inserted record, when it has that
key, lands in front of the others because `orderedInsert` only skips
records with strictly smaller keys. -/
theorem filter_orderedInsert_key (c : ℚ) (a : StockInfo) (l : List StockInfo) :
    ((List.orderedInsert pctLe a l).filter fun x => x.current_pct_from_low = c)
      = if a.current_pct_from_low = c
        then a :: (l.filter fun x => x.current_pct_from_low = c)
        else l.filter fun x => x.current_pct_from_low = c := by
  induction l with
  | nil =>
    by_cases ha : a.current_pct_from_low = c <;>
      simp [List.orderedInsert, List.filter_cons, ha]
  | cons b t ih =>
    by_cases hab : pctLe a b
    · rw [List.orderedInsert_of_le pctLe t hab]
      by_cases ha : a.current_pct_from_low = c <;> simp [List.filter_cons, ha]
    · have hstep : List.orderedInsert pctLe a (b :: t) = b :: List.orderedInsert pctLe a t := by
        simp [List.orderedInsert, hab]
      rw [hstep]
      by_cases ha : a.current_pct_from_low = c
      · have hb : ¬ b.current_pct_from_low = c := by
          intro hb
          exact hab (le_of_eq (ha.trans hb.symm))
        simp [List.filter_cons, ha, hb, ih]
      · by_cases hb : b.current_pct_from_low = c <;> simp [List.filter_cons, ha, hb, ih]

/-- Stability of the embedded sort: for every key value the sorted list
lists the records having that key in the same order as the input. -/
theorem filter_insertionSort_key (c : ℚ) (l : List StockInfo) :
    ((List.insertionSort pctLe l).filter fun x => x.current_pct_from_low = c)
      = l.filter fun x => x.current_pct_from_low = c := by
  induction l with
  | nil => rfl
  | cons a t ih =>
    show ((List.orderedInsert pctLe a (List.insertionSort pctLe t)).filter
        fun x => x.current_pct_from_low = c) = _
    rw [filter_orderedInsert_key, ih]
    by_cases ha : a.current_pct_from_low = c <;> simp [List.filter_cons, ha]

/-- Evaluation of the metrics on the sample series: last element 6,
minimum 2, maximum 6, percentage (6-2)/2*100 = 200, no 200-day mean,
suffix `".SA"` stripped from the ticker. -/
theorem computeStockInfo_sample :
    computeStockInfo "VALE3.SA" sampleSeries = some sampleInfo := by
  have harith : ((6 : ℚ) - 2) / 2 * 100 = 200 := by norm_num
  unfold computeStockInfo sampleSeries
  norm_num [List.min?, List.max?, List.getLast?, min_def, max_def]
  unfold sampleInfo movingAverage200 clean_ticker
  norm_num [harith]
  decide

/-- Claim C1: for every ticker whose price series is non-empty and has
a non-zero minimum, `current_pct_from_low` equals exactly
`(current_price - low_52_week) / low_52_week * 100`, where
`current_price` is the last element of the series and `low_52_week` is
the minimum of the whole series. -/
theorem pct_from_low_exact (t : String) (s : List ℚ) (info : StockInfo)
    (h : computeStockInfo t s = some info) (_h0 : info.low_52_week ≠ 0) :
    info.current_pct_from_low
        = (info.current_price - info.low_52_week) / info.low_52_week * 100 ∧
    s.getLast? = some info.current_price ∧
    info.low_52_week ∈ s ∧ ∀ b ∈ s, info.low_52_week ≤ b := by
  obtain ⟨hc, hlo, -, hpct, -, -⟩ := computeStockInfo_eq_some h
  obtain ⟨hmem, hbound⟩ := rat_min?_eq_some_iff.1 hlo
  exact ⟨hpct, hc, hmem, hbound⟩

/-- Witness for C1 on the concrete series `[4, 2, 6]`. -/
theorem pct_from_low_exact_witness :
    computeStockInfo "VALE3.SA" sampleSeries = some sampleInfo ∧
    sampleInfo.low_52_week ≠ 0 ∧
    (sampleInfo.current_pct_from_low
        = (sampleInfo.current_price - sampleInfo.low_52_week) / sampleInfo.low_52_week * 100 ∧
      sampleSeries.getLast? = some sampleInfo.current_price ∧
      sampleInfo.low_52_week ∈ sampleSeries ∧
      ∀ b ∈ sampleSeries, sampleInfo.low_52_week ≤ b) :=
  ⟨computeStockInfo_sample, by decide,
    pct_from_low_exact "VALE3.SA" sampleSeries sampleInfo computeStockInfo_sample (by decide)⟩

/-- Claim C2: on a (non-empty) price series of length at least 200 the
computed `moving_average_200d` is the arithmetic mean of exactly the
last 200 values (a length-200 suffix of the series); on a series
shorter than 200 it is the "not available" sentinel `none`, with no
error raised. -/
theorem movingAverage200_mean_of_last200 (s : List ℚ) (_hne : s ≠ []) :
    (200 ≤ s.length →
      movingAverage200 s = some (specArithMean (s.drop (s.length - 200))) ∧
      (s.drop (s.length - 200)).length = 200 ∧
      List.IsSuffix (s.drop (s.length - 200)) s) ∧
    (s.length < 200 → movingAverage200 s = none) := by
  constructor
  · intro hle
    have hlen : (s.drop (s.length - 200)).length = 200 := by
      rw [List.length_drop]
      omega
    refine ⟨?_, hlen, List.drop_suffix _ _⟩
    unfold movingAverage200 specArithMean
    rw [if_pos hle, hlen]
    norm_num
  · intro hlt
    unfold movingAverage200
    rw [if_neg (by omega)]

/-- Witness for C2 on the concrete one-element series `[1]`. -/
theorem movingAverage200_mean_of_last200_witness :
    ([(1 : ℚ)] ≠ []) ∧
    ((200 ≤ [(1 : ℚ)].length →
      movingAverage200 [(1 : ℚ)]
          = some (specArithMean ([(1 : ℚ)].drop ([(1 : ℚ)].length - 200))) ∧
      ([(1 : ℚ)].drop ([(1 : ℚ)].length - 200)).length = 200 ∧
      List.IsSuffix ([(1 : ℚ)].drop ([(1 : ℚ)].length - 200)) [(1 : ℚ)]) ∧
    ([(1 : ℚ)].length < 200 → movingAverage200 [(1 : ℚ)] = none)) :=
  ⟨by decide, movingAverage200_mean_of_last200 [(1 : ℚ)] (by decide)⟩

/-- Claim C3: `sort_stock_data` returns the stored records sorted
ascending by `current_pct_from_low`, as a permutation of the store,
and the sort is stable: for every key value the records having that
value keep the relative order they had in the store. -/
theorem rank_sorted_ascending_stable (p : StockDataProcessor) :
    List.Sorted pctLe (sort_stock_data p).1 ∧
    List.Perm (sort_stock_data p).1 p.stock_data ∧
    ∀ c : ℚ, ((sort_stock_data p).1.filter fun x => x.current_pct_from_low = c)
        = p.stock_data.filter fun x => x.current_pct_from_low = c :=
  ⟨List.sorted_insertionSort pctLe p.stock_data,
   List.perm_insertionSort pctLe p.stock_data,
   fun c => filter_insertionSort_key c p.stock_data⟩

/-- Claim C4: for every ranked sequence and positive `n`, `topN`
returns exactly the first `min n length` elements in their order; on a
sequence no longer than `n` it returns the full sequence unchanged,
and on the empty sequence it returns the empty sequence. -/
theorem topN_first_min (ranked : List StockInfo) (n : ℕ) (_hpos : 0 < n) :
    (topN ranked n).length = min n ranked.length ∧
    (∀ i, i < n → (topN ranked n)[i]? = ranked[i]?) ∧
    (ranked.length ≤ n → topN ranked n = ranked) ∧
    topN [] n = [] :=
  ⟨List.length_take n ranked,
   fun _ hi => List.getElem?_take_of_lt hi,
   fun hle => List.take_of_length_le hle,
   List.take_nil⟩

/-- Witness for C4 with `n = 2` on a one-record ranked sequence. -/
theorem topN_first_min_witness :
    0 < 2 ∧
    ((topN [sampleInfo] 2).length = min 2 [sampleInfo].length ∧
     (∀ i, i < 2 → (topN [sampleInfo] 2)[i]? = [sampleInfo][i]?) ∧
     ([sampleInfo].length ≤ 2 → topN [sampleInfo] 2 = [sampleInfo]) ∧
     topN [] 2 = []) :=
  ⟨by decide, topN_first_min [sampleInfo] 2 (by decide)⟩

/-- Claim C5: every record built from a non-empty price series
satisfies `low_52_week ≤ current_price ≤ high_52_week`, because min
and max range over the same series that contains the last point. -/
theorem low_le_current_le_high (t : String) (s : List ℚ) (info : StockInfo)
    (h : computeStockInfo t s = some info) :
    info.low_52_week ≤ info.current_price ∧
    info.current_price ≤ info.high_52_week := by
  obtain ⟨hc, hlo, hhi, -, -, -⟩ := computeStockInfo_eq_some h
  have hmem : info.current_price ∈ s := List.mem_of_getLast?_eq_some hc
  exact ⟨(rat_min?_eq_some_iff.1 hlo).2 _ hmem, (rat_max?_eq_some_iff.1 hhi).2 _ hmem⟩

/-- Witness for C5 on the concrete series `[4, 2, 6]`. -/
theorem low_le_current_le_high_witness :
    computeStockInfo "VALE3.SA" sampleSeries = some sampleInfo ∧
    (sampleInfo.low_52_week ≤ sampleInfo.current_price ∧
      sampleInfo.current_price ≤ sampleInfo.high_52_week) :=
  ⟨computeStockInfo_sample,
   low_le_current_le_high "VALE3.SA" sampleSeries sampleInfo computeStockInfo_sample⟩

/-- Claim C6 fails on the code: for a ticker that ends with `".SA"`
and also contains an interior `".SA"`, the normalisation of source
lines 72-74 removes every occurrence, not only the trailing suffix, so
other parts of the ticker are modified: `clean_ticker` maps
`"B.SAB.SA"` to `"BB"` instead of the `"B.SAB"` the claim requires. -/
theorem clean_ticker_strips_interior_occurrences :
    clean_ticker "B.SAB.SA" = "BB" ∧ clean_ticker "B.SAB.SA" ≠ "B.SAB" := by
  decide

/-- Claim C8: on a ticker list whose series are all non-empty the
fetch loop succeeds, produces exactly one record per requested ticker,
and the `i`-th record is computed from the `i`-th requested ticker
(the embedding is a pure function, so no side effects occur). -/
theorem fetch_preserves_input_order (tickers : List String) (close : String → List ℚ)
    (h : ∀ t ∈ tickers, close t ≠ []) :
    ∃ records, fetchRecords close tickers = some records ∧
      records.length = tickers.length ∧
      ∀ i : ℕ, records[i]? = (tickers[i]?).bind fun t => computeStockInfo t (close t) :=
  fetchRecords_spec close tickers h

/-- Witness for C8 on the one-ticker list `["VALE3.SA"]`. -/
theorem fetch_preserves_input_order_witness :
    (∀ t ∈ ["VALE3.SA"], sampleClose t ≠ []) ∧
    (∃ records, fetchRecords sampleClose ["VALE3.SA"] = some records ∧
      records.length = (["VALE3.SA"] : List String).length ∧
      ∀ i : ℕ, records[i]? =
        ((["VALE3.SA"] : List String)[i]?).bind fun t => computeStockInfo t (sampleClose t)) :=
  ⟨fun t _ => by simp [sampleClose, sampleSeries],
   fetch_preserves_input_order ["VALE3.SA"] sampleClose
     (fun t _ => by simp [sampleClose, sampleSeries])⟩

/-- Claim C9: a missing ticker file, or a file with no non-blank
lines, makes the run print an error and exit with code 1 before any
fetch or output; otherwise, when the fetch succeeds, the run exits
with code 0 and produces output. -/
theorem run_exit_codes (file : Option (List String)) (close : String → List ℚ) (top : ℕ) :
    (file = none → run file close top =
      { exitCode := 1, errorPrinted := true, fetchAttempted := false, output := none }) ∧
    (∀ lines, file = some lines → (lines.filter fun l => strip l ≠ "") = [] →
      run file close top =
        { exitCode := 1, errorPrinted := true, fetchAttempted := false, output := none }) ∧
    (∀ lines, file = some lines → (lines.filter fun l => strip l ≠ "") ≠ [] →
      (∀ t ∈ (lines.filter fun l => strip l ≠ "").map strip, close t ≠ []) →
      (run file close top).exitCode = 0 ∧ (run file close top).output ≠ none) := by
  refine ⟨?_, ?_, ?_⟩
  · intro hf
    subst hf
    rfl
  · intro lines hf hfil
    subst hf
    have hrt : read_tickers (some lines) = some [] := by
      show some ((lines.filter fun l => strip l ≠ "").map strip) = some []
      rw [hfil]
      rfl
    unfold run
    rw [hrt]
    rfl
  · intro lines hf hfil hclose
    subst hf
    have hne : ((lines.filter fun l => strip l ≠ "").map strip) ≠ [] := by
      intro hmap
      exact hfil (by simpa using hmap)
    obtain ⟨records, hrec, -, -⟩ :=
      fetchRecords_spec close ((lines.filter fun l => strip l ≠ "").map strip) hclose
    have hfetch : fetch_stock_data close
        { tickers := (lines.filter fun l => strip l ≠ "").map strip, stock_data := [] }
        = some { tickers := (lines.filter fun l => strip l ≠ "").map strip
               , stock_data := [] ++ records } := by
      unfold fetch_stock_data
      rw [hrec]
      rfl
    have hrt : read_tickers (some lines)
        = some ((lines.filter fun l => strip l ≠ "").map strip) := rfl
    have hrun : run (some lines) close top =
        { exitCode := 0, errorPrinted := false, fetchAttempted := true
        , output := some (create_dataframe
            { tickers := (lines.filter fun l => strip l ≠ "").map strip
            , stock_data := [] ++ records } top) } := by
      unfold run
      rw [hrt]
      simp only [if_neg hne]
      rw [hfetch]
    rw [hrun]
    exact ⟨rfl, by simp⟩

/-- Witness for C9: a missing file exits 1 without fetching; the file
`["AAPL", "", "  "]` (one real ticker plus blank lines) runs to exit
code 0 with output. -/
theorem run_exit_codes_witness :
    run none sampleClose 25 =
      { exitCode := 1, errorPrinted := true, fetchAttempted := false, output := none } ∧
    ((run (some ["AAPL", "", "  "]) sampleClose 25).exitCode = 0 ∧
      (run (some ["AAPL", "", "  "]) sampleClose 25).output ≠ none) :=
  ⟨(run_exit_codes none sampleClose 25).1 rfl,
   (run_exit_codes (some ["AAPL", "", "  "]) sampleClose 25).2.2 ["AAPL", "", "  "] rfl
     (by decide) (fun t _ => by simp [sampleClose, sampleSeries])⟩

/-- Claim C10: ranking is read-only — `sort_stock_data` leaves the
processor state (and with it every stored record) unchanged and
returns a new sequence holding exactly the stored records. -/
theorem sort_stock_data_readonly (p : StockDataProcessor) :
    (sort_stock_data p).2 = p ∧ List.Perm (sort_stock_data p).1 p.stock_data :=
  ⟨rfl, List.perm_insertionSort pctLe p.stock_data⟩
